import Mathlib

/-!
Shallow embedding of the booking ledger in `src/database.ts` and the
POST handler in `src/server.ts` of the car-park-booking repository.

The ledger stores rows in a SQLite table with a UNIQUE constraint on
`date`; we model the table as a list of rows plus the AUTOINCREMENT
counter.  `createBooking` validates the date string with a regex plus a
round trip through the JavaScript `Date` parser; we model the V8
behaviour of `new Date("YYYY-MM-DD")`:

* a string failing the `^\d{4}-\d{2}-\d{2}$` regex never reaches the
  parser (the validator returns `false` first);
* a regex-shaped string with month in 1..12 and day in 1..31 parses as a
  UTC date, rolling an overflowing day into the next month (V8 parses
  "2025-02-30" as 2025-03-02), so `toISOString().startsWith(date)`
  detects the mismatch and the validator returns `false`;
* a regex-shaped string with month outside 1..12 or day outside 1..31 is
  rejected by both the ES5 ISO parser and the legacy fallback parser,
  producing an Invalid Date, on which `toISOString()` throws a
  `RangeError` that propagates out of `isValidDateFormat` uncaught.

Thrown JavaScript errors are modelled by `LedgerError`, which records the
site of the throw together with the `message` string the HTTP layer
inspects.
-/

/-- Row type of the `bookings` table (`Booking` in `database.ts`). -/
structure Booking where
  id : Nat
  date : String
  employee_name : Option String
  employee_email : Option String
  created_at : String
deriving DecidableEq, Repr

/-- Input of `createBooking` (`CreateBookingInput` in `database.ts`);
optional fields are `Option`s, `none` standing for an omitted field. -/
structure CreateBookingInput where
  date : String
  employee_name : Option String := none
  employee_email : Option String := none
deriving DecidableEq, Repr

/-- State of the SQLite `bookings` table: the rows in insertion order and
the next AUTOINCREMENT rowid. -/
structure DBState where
  rows : List Booking
  nextId : Nat
deriving DecidableEq, Repr

/-- Freshly created database (empty table, first rowid is 1). -/
def emptyDB : DBState := { rows := [], nextId := 1 }

deriving instance DecidableEq for Except

/-- Errors thrown by the ledger, with the JavaScript `Error.message`
text the HTTP layer inspects. -/
inductive LedgerError where
  | invalidDate
  | dateAlreadyBooked (date : String)
  | rangeErrorInvalidTime
deriving DecidableEq, Repr

/-- Message text of each thrown error, exactly as produced by the code
(`throw new Error(...)` in `database.ts`, and the `RangeError` message
of `toISOString` on an Invalid Date). -/
def LedgerError.message : LedgerError → String
  | .invalidDate => "Date must be in YYYY-MM-DD format"
  | .dateAlreadyBooked d => "Date " ++ d ++ " is already booked"
  | .rangeErrorInvalidTime => "Invalid time value"

/-- Test of the regex `^\d{4}-\d{2}-\d{2}$` on a string. -/
def matchesIsoShape (s : String) : Bool :=
  match s.data with
  | [y1, y2, y3, y4, h1, m1, m2, h2, d1, d2] =>
    y1.isDigit && y2.isDigit && y3.isDigit && y4.isDigit &&
    h1 = '-' && m1.isDigit && m2.isDigit &&
    h2 = '-' && d1.isDigit && d2.isDigit
  | _ => false

/-- Numeric value of an ASCII digit character. -/
def digitVal (c : Char) : Nat := c.toNat - 48

/-- Year, month and day components of a regex-shaped date string. -/
def isoComponents (s : String) : Nat × Nat × Nat :=
  match s.data with
  | [y1, y2, y3, y4, _, m1, m2, _, d1, d2] =>
    (digitVal y1 * 1000 + digitVal y2 * 100 + digitVal y3 * 10 + digitVal y4,
     digitVal m1 * 10 + digitVal m2,
     digitVal d1 * 10 + digitVal d2)
  | _ => (0, 0, 0)

/-- Gregorian leap-year test. -/
def isLeapYear (y : Nat) : Bool :=
  (y % 4 = 0 && y % 100 ≠ 0) || y % 400 = 0

/-- Number of days of month `m` of year `y`. -/
def daysInMonth (y m : Nat) : Nat :=
  if m = 2 then (if isLeapYear y then 29 else 28)
  else if m = 4 || m = 6 || m = 9 || m = 11 then 30
  else 31

/-- Field-level bounds under which V8's date parsers accept a
`YYYY-MM-DD` string (month 1..12, day 1..31); outside them the string
parses to an Invalid Date. -/
def jsIsoInRange (c : Nat × Nat × Nat) : Bool :=
  1 ≤ c.2.1 && c.2.1 ≤ 12 && 1 ≤ c.2.2 && c.2.2 ≤ 31

/-- Calendar date V8 actually stores for components `(y, m, d)` with
`m` in 1..12 and `d` in 1..31: a day count exceeding the month's length
rolls over into the following month. -/
def jsRollDate (c : Nat × Nat × Nat) : Nat × Nat × Nat :=
  let y := c.1; let m := c.2.1; let d := c.2.2
  if d ≤ daysInMonth y m then (y, m, d)
  else if m = 12 then (y + 1, 1, d - 31)
  else (y, m + 1, d - daysInMonth y m)

/-- Decimal rendering of `n` left-padded with zeros to width 2. -/
def pad2 (n : Nat) : String :=
  if n < 10 then "0" ++ toString n else toString n

/-- Decimal rendering of `n` left-padded with zeros to width 4. -/
def pad4 (n : Nat) : String :=
  if n < 10 then "000" ++ toString n
  else if n < 100 then "00" ++ toString n
  else if n < 1000 then "0" ++ toString n
  else toString n

/-- Result of `Date.prototype.toISOString` for a UTC midnight of the
calendar date `(y, m, d)`. -/
def jsToIsoString (c : Nat × Nat × Nat) : String :=
  pad4 c.1 ++ "-" ++ pad2 c.2.1 ++ "-" ++ pad2 c.2.2 ++ "T00:00:00.000Z"

/-- Model of `String.prototype.startsWith`. -/
def strStartsWith (s pre : String) : Bool :=
  pre.data.isPrefixOf s.data

/-- Outcome of a JavaScript function call that either returns a boolean
or throws. -/
inductive JsOutcome where
  | ok (b : Bool)
  | rangeError
deriving DecidableEq, Repr

/-- Model of `isValidDateFormat` in `database.ts`: regex test, then
`new Date(date).toISOString().startsWith(date)`; when the parse yields
an Invalid Date, `toISOString` throws a `RangeError`. -/
def isValidDateFormat (date : String) : JsOutcome :=
  if matchesIsoShape date = false then .ok false
  else
    let c := isoComponents date
    if jsIsoInRange c then
      .ok (strStartsWith (jsToIsoString (jsRollDate c)) date)
    else
      .rangeError

/-- Coercion `x || null` applied by `createBooking` to the optional
fields: an omitted field and the empty string both become NULL. -/
def jsOrNull (o : Option String) : Option String :=
  match o with
  | some s => if s = "" then none else some s
  | none => none

/-- Row materialized by a successful INSERT: the system assigns the next
rowid, the optional fields pass through `x || null`, and `created_at`
takes the current timestamp `now` (CURRENT_TIMESTAMP default). -/
def mkBooking (input : CreateBookingInput) (now : String) (id : Nat) : Booking :=
  { id := id
    date := input.date
    employee_name := jsOrNull input.employee_name
    employee_email := jsOrNull input.employee_email
    created_at := now }

/-- Model of `createBooking` in `database.ts`: validate the date (the
thrown `RangeError` of the validator propagates), then atomically insert
under the UNIQUE constraint on `date`, translating the constraint
violation into the `already booked` error, and return the stored row
fetched back by rowid.  `now` is the clock value SQLite uses for
CURRENT_TIMESTAMP. -/
def createBooking (input : CreateBookingInput) (now : String) (db : DBState) :
    Except LedgerError (Booking × DBState) :=
  match isValidDateFormat input.date with
  | .rangeError => .error .rangeErrorInvalidTime
  | .ok false => .error .invalidDate
  | .ok true =>
    if db.rows.any (fun b => b.date = input.date) then
      .error (.dateAlreadyBooked input.date)
    else
      let b := mkBooking input now db.nextId
      .ok (b, { rows := db.rows ++ [b], nextId := db.nextId + 1 })

/-- Model of `getBookingByDate`: point lookup returning the first (and
under the UNIQUE constraint only) row with the given date. -/
def getBookingByDate (date : String) (db : DBState) : Option Booking :=
  db.rows.find? (fun b => b.date = date)

/-- Lexicographic comparison of character lists by code point, the order
SQLite's BINARY collation gives ASCII `TEXT` values. -/
def charListLe : List Char → List Char → Bool
  | [], _ => true
  | _ :: _, [] => false
  | a :: as, b :: bs =>
    if a.toNat < b.toNat then true
    else if a.toNat = b.toNat then charListLe as bs
    else false

/-- Ordering relation of `ORDER BY date ASC` on rows. -/
def dateLe (a b : Booking) : Prop := charListLe a.date.data b.date.data = true

instance : DecidableRel dateLe := fun a b =>
  inferInstanceAs (Decidable (charListLe a.date.data b.date.data = true))

/-- Model of `getAllBookings`: `SELECT * FROM bookings ORDER BY date
ASC`. -/
def getAllBookings (db : DBState) : List Booking :=
  db.rows.insertionSort dateLe

/-- Model of `deleteBooking`: `DELETE FROM bookings WHERE date = ?`,
reporting whether any row was removed (`info.changes > 0`). -/
def deleteBooking (date : String) (db : DBState) : Bool × DBState :=
  let changes := db.rows.countP (fun b => b.date = date)
  (decide (0 < changes), { db with rows := db.rows.filter (fun b => ¬ b.date = date) })

/-- One ledger operation, as invoked by the HTTP layer. -/
inductive LedgerOp where
  | create (input : CreateBookingInput) (now : String)
  | deleteByDate (date : String)
  | getByDate (date : String)
  | listOrdered
deriving Repr

/-- Effect of one operation on the stored collection: reads leave it
unchanged, a failed create throws (leaving no partial state), a delete
keeps the filtered rows. -/
def applyOp (db : DBState) : LedgerOp → DBState
  | .create input now =>
    match createBooking input now db with
    | .ok (_, db') => db'
    | .error _ => db
  | .deleteByDate d => (deleteBooking d db).2
  | .getByDate _ => db
  | .listOrdered => db

/-- Collection reached by a sequence of operations from the empty
table. -/
def runOps (ops : List LedgerOp) : DBState :=
  ops.foldl applyOp emptyDB

/-- Uniqueness invariant of the table: at most one live row per date. -/
def atMostOnePerDate (db : DBState) : Prop :=
  ∀ d : String, db.rows.countP (fun b => b.date = d) ≤ 1

/-- Serialization of `create` calls: each element carries the caller's
input and the clock value of its transaction.  Because the
check-and-insert of `createBooking` is one atomic transaction, an
arbitrary interleaving of N concurrent calls behaves as some sequential
order of the N atomic units, which this function executes. -/
def runCreates (calls : List (CreateBookingInput × String)) (db : DBState) :
    List (Except LedgerError Booking) × DBState :=
  match calls with
  | [] => ([], db)
  | (i, t) :: rest =>
    match createBooking i t db with
    | .ok (b, db') =>
      let r := runCreates rest db'
      (.ok b :: r.1, r.2)
    | .error e =>
      let r := runCreates rest db
      (.error e :: r.1, r.2)

/-- Whether `pat` occurs as a contiguous substring of `s` (model of
`String.prototype.includes`, over character lists). -/
def containsSub : List Char → List Char → Bool
  | [], pat => pat.isEmpty
  | s@(_ :: rest), pat => pat.isPrefixOf s || containsSub rest pat

/-- Model of `message.includes(pat)` in `server.ts`. -/
def strIncludes (s pat : String) : Bool :=
  containsSub s.data pat.data

/-- Body of an HTTP response produced by the routing layer. -/
inductive RespBody where
  | bookingJson (b : Booking)
  | errJson (msg : String)
  | empty
deriving DecidableEq, Repr

/-- HTTP response: status code plus JSON body. -/
structure Resp where
  status : Nat
  body : RespBody
deriving DecidableEq, Repr

/-- Model of the `POST /api/bookings` handler in `server.ts`: require a
truthy `date` field, call `createBooking`, and on a thrown error pick
the status by substring tests on the error message. -/
def postBookings (date : Option String) (ename eemail : Option String)
    (now : String) (db : DBState) : Resp × DBState :=
  match date with
  | none => ({ status := 400, body := .errJson "Date is required" }, db)
  | some d =>
    if d = "" then ({ status := 400, body := .errJson "Date is required" }, db)
    else
      match createBooking ⟨d, ename, eemail⟩ now db with
      | .ok (b, db') => ({ status := 201, body := .bookingJson b }, db')
      | .error e =>
        if strIncludes e.message "Invalid date format" then
          ({ status := 400, body := .errJson e.message }, db)
        else if strIncludes e.message "already booked" then
          ({ status := 409, body := .errJson e.message }, db)
        else
          ({ status := 500, body := .errJson "Failed to create booking" }, db)

/-- Collection holding bookings for 2025-12-10, 2025-12-08 and
2025-12-09, created in that order (the P4 scenario). -/
def db3 : DBState :=
  runOps [.create ⟨"2025-12-10", none, none⟩ "t1",
          .create ⟨"2025-12-08", none, none⟩ "t2",
          .create ⟨"2025-12-09", none, none⟩ "t3"]

/-- Collection holding one booking for 2025-12-03. -/
def dbDec3 : DBState :=
  runOps [.create ⟨"2025-12-03", some "John Doe", some "john@example.com"⟩ "t1"]

/-- Unfolding of the cons case of the lexicographic comparison. -/
theorem charListLe_cons_iff (a b : Char) (as bs : List Char) :
    charListLe (a :: as) (b :: bs) = true ↔
      a.toNat < b.toNat ∨ (a.toNat = b.toNat ∧ charListLe as bs = true) := by
  simp only [charListLe]
  split_ifs with h1 h2
  · simp [h1]
  · simp [h1, h2]
  · simp [h1, h2]

/-- Totality of the lexicographic comparison. -/
theorem charListLe_total : ∀ l1 l2 : List Char,
    charListLe l1 l2 = true ∨ charListLe l2 l1 = true := by
  intro l1
  induction l1 with
  | nil => intro l2; exact .inl rfl
  | cons a as ih =>
    intro l2
    cases l2 with
    | nil => exact .inr rfl
    | cons b bs =>
      rw [charListLe_cons_iff, charListLe_cons_iff]
      rcases Nat.lt_trichotomy a.toNat b.toNat with h | h | h
      · exact .inl (.inl h)
      · rcases ih bs with h2 | h2
        · exact .inl (.inr ⟨h, h2⟩)
        · exact .inr (.inr ⟨h.symm, h2⟩)
      · exact .inr (.inl h)

/-- Transitivity of the lexicographic comparison. -/
theorem charListLe_trans : ∀ l1 l2 l3 : List Char, charListLe l1 l2 = true →
    charListLe l2 l3 = true → charListLe l1 l3 = true := by
  intro l1
  induction l1 with
  | nil => intro l2 l3 _ _; rfl
  | cons a as ih =>
    intro l2 l3 h12 h23
    cases l2 with
    | nil => exact absurd h12 (by simp [charListLe])
    | cons b bs =>
      cases l3 with
      | nil => exact absurd h23 (by simp [charListLe])
      | cons c cs =>
        rw [charListLe_cons_iff] at h12 h23 ⊢
        rcases h12 with h12 | ⟨h12e, h12r⟩ <;> rcases h23 with h23 | ⟨h23e, h23r⟩
        · exact .inl (h12.trans h23)
        · exact .inl (by omega)
        · exact .inl (by omega)
        · exact .inr ⟨h12e.trans h23e, ih bs cs h12r h23r⟩

instance : IsTotal Booking dateLe :=
  ⟨fun a b => charListLe_total a.date.data b.date.data⟩

instance : IsTrans Booking dateLe :=
  ⟨fun _ _ _ h1 h2 => charListLe_trans _ _ _ h1 h2⟩

/-- Equation of `createBooking` in the successful case: valid date, no
existing row for it. -/
theorem createBooking_ok_eq (input : CreateBookingInput) (now : String) (db : DBState)
    (hv : isValidDateFormat input.date = .ok true)
    (hfree : db.rows.any (fun b => b.date = input.date) = false) :
    createBooking input now db =
      .ok (mkBooking input now db.nextId,
        { rows := db.rows ++ [mkBooking input now db.nextId], nextId := db.nextId + 1 }) := by
  unfold createBooking
  rw [hv]
  simp [hfree]

/-- Equation of `createBooking` when a live row with the same date
exists: the UNIQUE violation is translated into the booked error. -/
theorem createBooking_dup_eq (input : CreateBookingInput) (now : String) (db : DBState)
    (hv : isValidDateFormat input.date = .ok true)
    (hdup : db.rows.any (fun b => b.date = input.date) = true) :
    createBooking input now db = .error (.dateAlreadyBooked input.date) := by
  unfold createBooking
  rw [hv]
  simp [hdup]

/-- Equation of `createBooking` when the validator returns false. -/
theorem createBooking_invalid_eq (input : CreateBookingInput) (now : String) (db : DBState)
    (hv : isValidDateFormat input.date = .ok false) :
    createBooking input now db = .error .invalidDate := by
  unfold createBooking
  rw [hv]

/-- Inversion of a successful `createBooking` call. -/
theorem createBooking_ok_inv {input : CreateBookingInput} {now : String} {db : DBState}
    {b : Booking} {db' : DBState} (h : createBooking input now db = .ok (b, db')) :
    b = mkBooking input now db.nextId ∧
    db' = { rows := db.rows ++ [b], nextId := db.nextId + 1 } ∧
    db.rows.any (fun x => x.date = input.date) = false := by
  unfold createBooking at h
  cases hv : isValidDateFormat input.date with
  | rangeError => rw [hv] at h; simp at h
  | ok bb =>
    cases bb with
    | false => rw [hv] at h; simp at h
    | true =>
      rw [hv] at h
      by_cases hfree : db.rows.any (fun x => x.date = input.date) = true
      · rw [if_pos hfree] at h; simp at h
      · rw [if_neg hfree] at h
        simp only [Except.ok.injEq, Prod.mk.injEq] at h
        refine ⟨h.1.symm, ?_, by simpa using hfree⟩
        rw [← h.2, ← h.1]

/-- Every single operation preserves the per-date uniqueness of the
stored collection. -/
theorem applyOp_preserves_atMostOne (db : DBState) (op : LedgerOp)
    (h : atMostOnePerDate db) : atMostOnePerDate (applyOp db op) := by
  cases op with
  | getByDate d => exact h
  | listOrdered => exact h
  | deleteByDate d =>
    intro d'
    simp only [applyOp, deleteBooking]
    exact le_trans (List.Sublist.countP_le _ (List.filter_sublist _)) (h d')
  | create input now =>
    cases hc : createBooking input now db with
    | error e => simpa [applyOp, hc] using h
    | ok pr =>
      obtain ⟨b, db'⟩ := pr
      obtain ⟨hb, hdb, hfree⟩ := createBooking_ok_inv hc
      intro d'
      simp only [applyOp, hc, hdb, List.countP_append]
      by_cases hd : b.date = d'
      · have hdate : b.date = input.date := by rw [hb]; rfl
        have hzero : db.rows.countP (fun x => x.date = d') = 0 := by
          rw [List.countP_eq_zero]
          intro a ha
          have := (List.any_eq_false.mp hfree) a ha
          simp only [decide_eq_true_eq] at this ⊢
          rw [← hd, hdate]
          exact this
        simp [hzero, hd]
      · have : db.rows.countP (fun x => x.date = d') ≤ 1 := h d'
        simpa [hd] using this

/-- Folding any operation list preserves the uniqueness invariant. -/
theorem foldl_preserves_atMostOne (ops : List LedgerOp) (db : DBState)
    (h : atMostOnePerDate db) : atMostOnePerDate (ops.foldl applyOp db) := by
  induction ops generalizing db with
  | nil => exact h
  | cons op rest ih => exact ih _ (applyOp_preserves_atMostOne db op h)

/-- C1 (uniqueness invariant): for every sequence of ledger operations
starting from the empty collection and every date string `d`, at most
one live booking with date `d` exists in the stored collection at every
point of the sequence. -/
theorem uniqueness_invariant (ops : List LedgerOp) (d : String) :
    (runOps ops).rows.countP (fun b => b.date = d) ≤ 1 :=
  foldl_preserves_atMostOne ops emptyDB (fun _ => by simp [emptyDB]) d

/-- Once a live row for `d` exists, every serialized `create` call for
`d` fails with the booked error and leaves the collection unchanged. -/
theorem runCreates_allDup (calls : List (CreateBookingInput × String)) (d : String)
    (db : DBState) (hd : ∀ c ∈ calls, c.1.date = d)
    (hv : isValidDateFormat d = .ok true)
    (hdup : db.rows.any (fun b => b.date = d) = true) :
    runCreates calls db = (calls.map (fun _ => .error (.dateAlreadyBooked d)), db) := by
  induction calls with
  | nil => rfl
  | cons c rest ih =>
    obtain ⟨i, t⟩ := c
    have hdate : i.date = d := hd ⟨i, t⟩ (List.mem_cons_self _ _)
    have herr : createBooking i t db = .error (.dateAlreadyBooked d) := by
      rw [← hdate] at hv hdup ⊢
      exact createBooking_dup_eq i t db hv hdup
    simp only [runCreates, herr]
    rw [ih (fun c hc => hd c (List.mem_cons_of_mem _ hc))]
    rfl

/-- C2 (at-most-one-winner race safety): the check-and-insert of
`createBooking` is one atomic transaction, so an arbitrary interleaving
of N concurrent `create` calls with identical date `d` is some
serialization of the N atomic units.  For every serialization (hence
every interleaving) starting from a collection with no row for `d`,
exactly one call — the first scheduled — succeeds and returns the
materialized booking of its own input, each of the remaining N−1 calls
fails with the `DateAlreadyBooked` error carrying `d`, and the single
stored row for `d` is the successful caller's materialized input. -/
theorem race_at_most_one_winner (first : CreateBookingInput × String)
    (rest : List (CreateBookingInput × String)) (d : String) (db : DBState)
    (hd : ∀ c ∈ first :: rest, c.1.date = d)
    (hv : isValidDateFormat d = .ok true)
    (hfree : db.rows.any (fun b => b.date = d) = false) :
    runCreates (first :: rest) db =
      (.ok (mkBooking first.1 first.2 db.nextId) ::
        rest.map (fun _ => .error (.dateAlreadyBooked d)),
       { rows := db.rows ++ [mkBooking first.1 first.2 db.nextId],
         nextId := db.nextId + 1 }) ∧
    (db.rows ++ [mkBooking first.1 first.2 db.nextId]).filter (fun b => b.date = d) =
      [mkBooking first.1 first.2 db.nextId] := by
  obtain ⟨i, t⟩ := first
  have hdate : i.date = d := hd ⟨i, t⟩ (List.mem_cons_self _ _)
  have hok : createBooking i t db =
      .ok (mkBooking i t db.nextId,
        { rows := db.rows ++ [mkBooking i t db.nextId], nextId := db.nextId + 1 }) := by
    refine createBooking_ok_eq i t db ?_ ?_
    · rw [hdate]; exact hv
    · rw [hdate]; exact hfree
  have hmkdate : (mkBooking i t db.nextId).date = d := by
    simp [mkBooking, hdate]
  have hfilter : (db.rows ++ [mkBooking i t db.nextId]).filter (fun b => b.date = d) =
      [mkBooking i t db.nextId] := by
    rw [List.filter_append]
    have h1 : db.rows.filter (fun b => b.date = d) = [] := by
      rw [List.filter_eq_nil_iff]
      intro a ha
      exact (List.any_eq_false.mp hfree) a ha
    have h2 : [mkBooking i t db.nextId].filter (fun b => b.date = d) =
        [mkBooking i t db.nextId] := by
      simp [List.filter, hmkdate]
    rw [h1, h2, List.nil_append]
  refine ⟨?_, hfilter⟩
  have hdup2 : (DBState.mk (db.rows ++ [mkBooking i t db.nextId])
      (db.nextId + 1)).rows.any (fun b => b.date = d) = true := by
    rw [List.any_eq_true]
    exact ⟨mkBooking i t db.nextId, List.mem_append_right _ (List.mem_singleton_self _),
      by simp [hmkdate]⟩
  simp only [runCreates, hok]
  rw [runCreates_allDup rest d _ (fun c hc => hd c (List.mem_cons_of_mem _ hc)) hv hdup2]

/-- Concrete instance of the race-safety theorem: three rival calls for
2025-12-05 scheduled against the empty collection produce one winner and
two booked failures, and the table stores the winner's row. -/
theorem race_at_most_one_winner_witness :
    isValidDateFormat "2025-12-05" = .ok true ∧
    emptyDB.rows.any (fun b => b.date = "2025-12-05") = false ∧
    (runCreates
        [(⟨"2025-12-05", some "User 1", none⟩, "t1"),
         (⟨"2025-12-05", some "User 2", none⟩, "t2"),
         (⟨"2025-12-05", some "User 3", none⟩, "t3")] emptyDB =
      (.ok (mkBooking ⟨"2025-12-05", some "User 1", none⟩ "t1" 1) ::
        List.map (fun _ => .error (.dateAlreadyBooked "2025-12-05"))
          [((⟨"2025-12-05", some "User 2", none⟩ : CreateBookingInput), "t2"),
           (⟨"2025-12-05", some "User 3", none⟩, "t3")],
       { rows := [mkBooking ⟨"2025-12-05", some "User 1", none⟩ "t1" 1],
         nextId := 2 }) ∧
     ([] ++ [mkBooking ⟨"2025-12-05", some "User 1", none⟩ "t1" 1]).filter
        (fun b => b.date = "2025-12-05") =
       [mkBooking ⟨"2025-12-05", some "User 1", none⟩ "t1" 1]) := by
  refine ⟨by decide, by decide, ?_⟩
  exact race_at_most_one_winner (⟨"2025-12-05", some "User 1", none⟩, "t1")
    [(⟨"2025-12-05", some "User 2", none⟩, "t2"),
     (⟨"2025-12-05", some "User 3", none⟩, "t3")]
    "2025-12-05" emptyDB (by decide) (by decide) (by decide)

/-- C3 (invalid-date rejection), evaluated on concrete inputs.  The four
inputs named by the spec are rejected with the `InvalidDate` error whose
message is the claimed one, and no row is created.  The universal form
of the claim is false: the regex-shaped input "2025-13-01" does not
denote a real calendar date, yet `new Date("2025-13-01")` is an Invalid
Date, so `isValidDateFormat` crashes in `toISOString()` with an uncaught
`RangeError` ("Invalid time value") instead of returning false, and
`createBooking` propagates that error rather than `InvalidDate`. -/
theorem invalid_date_rejection_eval :
    createBooking ⟨"2025/12/03", none, none⟩ "t0" emptyDB = .error .invalidDate ∧
    createBooking ⟨"12-03-2025", none, none⟩ "t0" emptyDB = .error .invalidDate ∧
    createBooking ⟨"not-a-date", none, none⟩ "t0" emptyDB = .error .invalidDate ∧
    createBooking ⟨"2025-02-30", none, none⟩ "t0" emptyDB = .error .invalidDate ∧
    LedgerError.invalidDate.message = "Date must be in YYYY-MM-DD format" ∧
    (∀ op ∈ [LedgerOp.create ⟨"2025/12/03", none, none⟩ "t0",
             LedgerOp.create ⟨"12-03-2025", none, none⟩ "t0",
             LedgerOp.create ⟨"not-a-date", none, none⟩ "t0",
             LedgerOp.create ⟨"2025-02-30", none, none⟩ "t0",
             LedgerOp.create ⟨"2025-13-01", none, none⟩ "t0"],
       applyOp emptyDB op = emptyDB) ∧
    createBooking ⟨"2025-13-01", none, none⟩ "t0" emptyDB =
      .error .rangeErrorInvalidTime ∧
    LedgerError.rangeErrorInvalidTime.message ≠ "Date must be in YYYY-MM-DD format" := by
  decide

/-- C4 (duplicate-date rejection with atomicity): when a live booking
with the same valid date exists, `createBooking` fails with the
`DateAlreadyBooked` error whose message carries the conflicting date,
and the stored collection is unchanged by the failed call. -/
theorem duplicate_date_rejected (input : CreateBookingInput) (now : String) (db : DBState)
    (hv : isValidDateFormat input.date = .ok true)
    (hdup : db.rows.any (fun b => b.date = input.date) = true) :
    createBooking input now db = .error (.dateAlreadyBooked input.date) ∧
    (LedgerError.dateAlreadyBooked input.date).message =
      "Date " ++ input.date ++ " is already booked" ∧
    applyOp db (.create input now) = db := by
  have herr := createBooking_dup_eq input now db hv hdup
  exact ⟨herr, rfl, by simp [applyOp, herr]⟩

/-- Concrete instance of the duplicate-rejection theorem: a second
booking for 2025-12-03 fails with the booked error and message, leaving
the collection unchanged. -/
theorem duplicate_date_rejected_witness :
    isValidDateFormat "2025-12-03" = .ok true ∧
    dbDec3.rows.any (fun b => b.date = "2025-12-03") = true ∧
    (createBooking ⟨"2025-12-03", some "Jane Smith", some "jane@example.com"⟩ "t2" dbDec3 =
       .error (.dateAlreadyBooked "2025-12-03") ∧
     (LedgerError.dateAlreadyBooked "2025-12-03").message =
       "Date " ++ "2025-12-03" ++ " is already booked" ∧
     applyOp dbDec3 (.create ⟨"2025-12-03", some "Jane Smith", some "jane@example.com"⟩ "t2") =
       dbDec3) :=
  ⟨by decide, by decide,
    duplicate_date_rejected ⟨"2025-12-03", some "Jane Smith", some "jane@example.com"⟩
      "t2" dbDec3 (by decide) (by decide)⟩

/-- C5 (HTTP error mapping of POST /api/bookings), evaluated on concrete
requests.  The `DateAlreadyBooked` half holds: the handler answers 409
with the booked message.  The `InvalidDate` half is false on the code:
the handler greps the thrown message for the substring "Invalid date
format", but the ledger throws "Date must be in YYYY-MM-DD format",
which does not contain it, so the request falls through to the generic
500 response instead of the claimed 400. -/
theorem post_error_mapping_eval :
    postBookings (some "2025/12/03") none none "t0" emptyDB =
      ({ status := 500, body := .errJson "Failed to create booking" }, emptyDB) ∧
    strIncludes (LedgerError.invalidDate).message "Invalid date format" = false ∧
    strIncludes (LedgerError.invalidDate).message "already booked" = false ∧
    postBookings (some "2025-12-03") (some "Jane Smith") none "t2" dbDec3 =
      ({ status := 409, body := .errJson "Date 2025-12-03 is already booked" }, dbDec3) := by
  decide

/-- C6 (deleteByDate semantics and idempotence): `deleteBooking` reports
whether a live row with the given date existed and removes exactly the
rows with that date, a call on a collection without such a row reports
false and leaves the collection unchanged, and a second delete
immediately after any delete reports false. -/
theorem deleteByDate_spec (d : String) (db : DBState) :
    (deleteBooking d db).1 = db.rows.any (fun b => b.date = d) ∧
    (deleteBooking d db).2.rows = db.rows.filter (fun b => ¬ b.date = d) ∧
    (db.rows.any (fun b => b.date = d) = false → (deleteBooking d db).2 = db) ∧
    (deleteBooking d ((deleteBooking d db).2)).1 = false := by
  refine ⟨?_, rfl, ?_, ?_⟩
  · cases hany : db.rows.any (fun b => b.date = d) with
    | true =>
      obtain ⟨a, ha, hp⟩ := List.any_eq_true.mp hany
      have hpos : 0 < db.rows.countP (fun b => b.date = d) :=
        List.countP_pos_iff.mpr ⟨a, ha, hp⟩
      simp [deleteBooking, hpos]
    | false =>
      have hzero : db.rows.countP (fun b => b.date = d) = 0 :=
        List.countP_eq_zero.mpr (List.any_eq_false.mp hany)
      simp [deleteBooking, hzero]
  · intro hfree
    have hself : db.rows.filter (fun b => !decide (b.date = d)) = db.rows := by
      rw [List.filter_eq_self]
      intro a ha
      have := List.any_eq_false.mp hfree a ha
      simpa using this
    simp [deleteBooking, hself]
  · have hzero : (db.rows.filter (fun b => !decide (b.date = d))).countP
        (fun b => b.date = d) = 0 := by
      rw [List.countP_eq_zero]
      intro a ha
      have := List.mem_filter.mp ha
      simpa using this.2
    simp [deleteBooking, hzero]

/-- Concrete instance of the delete specification: deleting a date with
no live row reports false and leaves the collection unchanged. -/
theorem deleteByDate_spec_witness :
    emptyDB.rows.any (fun b => b.date = "2025-12-31") = false ∧
    (deleteBooking "2025-12-31" emptyDB).2 = emptyDB :=
  ⟨by decide, (deleteByDate_spec "2025-12-31" emptyDB).2.2.1 (by decide)⟩

/-- C7 (ordered listing): `getAllBookings` always succeeds, mutates
nothing, and returns exactly the live bookings sorted ascending by date;
in particular, after creating bookings for 2025-12-10, 2025-12-08 and
2025-12-09 in that order, it returns them in the order 2025-12-08,
2025-12-09, 2025-12-10. -/
theorem listOrdered_spec :
    (∀ db : DBState, List.Perm (getAllBookings db) db.rows ∧
      List.Sorted dateLe (getAllBookings db) ∧
      applyOp db .listOrdered = db) ∧
    (getAllBookings db3).map (fun b => b.date) =
      ["2025-12-08", "2025-12-09", "2025-12-10"] := by
  refine ⟨fun db => ⟨List.perm_insertionSort dateLe db.rows,
    List.sorted_insertionSort dateLe db.rows, rfl⟩, ?_⟩
  decide

/-- Coercion through `x || null` never stores an empty string. -/
theorem jsOrNull_ne_empty (o : Option String) : jsOrNull o ≠ some "" := by
  cases o with
  | none => simp [jsOrNull]
  | some s => by_cases h : s = "" <;> simp [jsOrNull, h]

/-- C8 (defaults and materialization): a successful create returns the
fully materialized stored record — appended to the table, carrying the
system-assigned id and the insertion timestamp — and each omitted
optional field is stored as NULL, which is distinct from the empty
string. -/
theorem create_defaults (input : CreateBookingInput) (now : String) (db : DBState)
    (hv : isValidDateFormat input.date = .ok true)
    (hfree : db.rows.any (fun b => b.date = input.date) = false) :
    ∃ b db', createBooking input now db = .ok (b, db') ∧
      db'.rows = db.rows ++ [b] ∧ b.id = db.nextId ∧ b.created_at = now ∧
      b.date = input.date ∧
      (input.employee_name = none → b.employee_name = none) ∧
      (input.employee_email = none → b.employee_email = none) ∧
      b.employee_name ≠ some "" ∧ b.employee_email ≠ some "" := by
  refine ⟨mkBooking input now db.nextId, _, createBooking_ok_eq input now db hv hfree,
    rfl, rfl, rfl, rfl, ?_, ?_, jsOrNull_ne_empty _, jsOrNull_ne_empty _⟩
  · intro h; simp [mkBooking, h, jsOrNull]
  · intro h; simp [mkBooking, h, jsOrNull]

/-- Concrete instance of the defaults theorem at the spec's P5 input:
`create({date: "2025-12-02"})` stores NULL for both optional fields. -/
theorem create_defaults_witness :
    isValidDateFormat "2025-12-02" = .ok true ∧
    emptyDB.rows.any (fun b => b.date = "2025-12-02") = false ∧
    (∃ b db', createBooking ⟨"2025-12-02", none, none⟩ "t0" emptyDB = .ok (b, db') ∧
      db'.rows = emptyDB.rows ++ [b] ∧ b.id = emptyDB.nextId ∧ b.created_at = "t0" ∧
      b.date = "2025-12-02" ∧
      ((none : Option String) = none → b.employee_name = none) ∧
      ((none : Option String) = none → b.employee_email = none) ∧
      b.employee_name ≠ some "" ∧ b.employee_email ≠ some "") :=
  ⟨by decide, by decide,
    create_defaults ⟨"2025-12-02", none, none⟩ "t0" emptyDB (by decide) (by decide)⟩

/-- C9 (create/get/delete round trip): the booking returned by a
successful create is retrievable unchanged via `getBookingByDate`
immediately afterward, and after `deleteBooking` on its date it is
absent from both `getBookingByDate` and the ordered listing. -/
theorem create_roundtrip (input : CreateBookingInput) (now : String) (db : DBState)
    (hv : isValidDateFormat input.date = .ok true)
    (hfree : db.rows.any (fun b => b.date = input.date) = false) :
    ∃ b db', createBooking input now db = .ok (b, db') ∧
      getBookingByDate input.date db' = some b ∧
      getBookingByDate input.date (deleteBooking input.date db').2 = none ∧
      b ∉ getAllBookings (deleteBooking input.date db').2 := by
  refine ⟨mkBooking input now db.nextId, _,
    createBooking_ok_eq input now db hv hfree, ?_, ?_, ?_⟩
  · show (db.rows ++ [mkBooking input now db.nextId]).find?
      (fun x => x.date = input.date) = some (mkBooking input now db.nextId)
    rw [List.find?_append]
    have h1 : db.rows.find? (fun x => decide (x.date = input.date)) = none :=
      List.find?_eq_none.mpr (List.any_eq_false.mp hfree)
    rw [h1]
    simp [List.find?, mkBooking]
  · show ((db.rows ++ [mkBooking input now db.nextId]).filter
      (fun x => decide (¬ x.date = input.date))).find?
      (fun x => x.date = input.date) = none
    rw [List.find?_eq_none]
    intro x hx
    have := (List.mem_filter.mp hx).2
    simpa using this
  · intro hmem
    have hmem2 : mkBooking input now db.nextId ∈
        (db.rows ++ [mkBooking input now db.nextId]).filter
          (fun x => decide (¬ x.date = input.date)) :=
      (List.mem_insertionSort dateLe).mp hmem
    have := (List.mem_filter.mp hmem2).2
    simp [mkBooking] at this

/-- Concrete instance of the round-trip theorem at the date
2025-12-11. -/
theorem create_roundtrip_witness :
    isValidDateFormat "2025-12-11" = .ok true ∧
    emptyDB.rows.any (fun b => b.date = "2025-12-11") = false ∧
    (∃ b db', createBooking ⟨"2025-12-11", some "Test User", some "test@example.com"⟩
        "t0" emptyDB = .ok (b, db') ∧
      getBookingByDate "2025-12-11" db' = some b ∧
      getBookingByDate "2025-12-11" (deleteBooking "2025-12-11" db').2 = none ∧
      b ∉ getAllBookings (deleteBooking "2025-12-11" db').2) :=
  ⟨by decide, by decide,
    create_roundtrip ⟨"2025-12-11", some "Test User", some "test@example.com"⟩
      "t0" emptyDB (by decide) (by decide)⟩

/-- C10 (empty-string coercion): a provided-but-empty optional field is
stored as NULL, because `createBooking` passes the fields through the
falsy-coalescing `x || null`. -/
theorem empty_string_coerced (input : CreateBookingInput) (now : String) (db : DBState)
    (hv : isValidDateFormat input.date = .ok true)
    (hfree : db.rows.any (fun b => b.date = input.date) = false) :
    ∃ b db', createBooking input now db = .ok (b, db') ∧
      (input.employee_name = some "" → b.employee_name = none) ∧
      (input.employee_email = some "" → b.employee_email = none) := by
  refine ⟨mkBooking input now db.nextId, _,
    createBooking_ok_eq input now db hv hfree, ?_, ?_⟩
  · intro h; simp [mkBooking, h, jsOrNull]
  · intro h; simp [mkBooking, h, jsOrNull]

/-- Concrete instance of the empty-string coercion theorem: both
optional fields provided as empty strings are stored as NULL. -/
theorem empty_string_coerced_witness :
    isValidDateFormat "2025-12-06" = .ok true ∧
    emptyDB.rows.any (fun b => b.date = "2025-12-06") = false ∧
    (∃ b db', createBooking ⟨"2025-12-06", some "", some ""⟩ "t0" emptyDB = .ok (b, db') ∧
      ((some "" : Option String) = some "" → b.employee_name = none) ∧
      ((some "" : Option String) = some "" → b.employee_email = none)) :=
  ⟨by decide, by decide,
    empty_string_coerced ⟨"2025-12-06", some "", some ""⟩ "t0" emptyDB
      (by decide) (by decide)⟩
